import Mathlib

/-!
Shallow embedding of the Todo Collection Manager of the `todo-ai-workflow`
repository: the Todo data model (`src/types/todo.ts`), the zustand store's
pure derivations and success-path mutations (`src/store/todoStore.ts`),
the REST handlers (`src/app/api/todos/route.ts` and
`src/app/api/todos/[id]/route.ts`), and the IndexedDB persistence adapter
(`src/utils/indexedDB.ts`).

Modelling conventions:
  - JavaScript `Date` values are modelled as `Int` millisecond timestamps
    (`Date.getTime()`); `new Date()` at a call site becomes an explicit
    `now : Int` parameter.  The date-revival maps in `getAllTodos` /
    `getTodosByFilter` (`new Date(todo.createdAt)` etc.) are therefore the
    identity here and are not written out.
  - Arbitrary JSON request-body values are modelled by the inductive `JVal`
    where the code performs runtime type tests (`typeof`, `Array.isArray`)
    or truthiness checks; body fields the code merely spreads through are
    given their TypeScript-declared types.
  - The IndexedDB object store is modelled as a list of records sorted
    ascending by primary key `id`, per the platform contract: `store.add`
    is insert-only and errors on an existing key, `store.put` is an upsert,
    `store.delete` succeeds even when the key is absent, and `getAll`
    returns records in primary-key order.
  - `async` handlers become pure functions over an explicit store value;
    fallible persistence calls become `Except` results, and the per-id
    failure of `dbManager.deleteTodo` inside the bulk-delete loop is an
    explicit oracle parameter `fails : String → Bool`.
-/

/-- The sole domain entity (`Todo` in `src/types/todo.ts`).  `priority` is
kept as a `String` because the POST handler casts the incoming value with
`priority as 'low' | 'medium' | 'high'` without validating it. -/
structure Todo where
  id : String
  title : String
  description : Option String
  completed : Bool
  priority : String
  dueDate : Option Int
  tags : List String
  createdAt : Int
  updatedAt : Int
deriving DecidableEq, Repr

/-- The transient query spec (`TodoFilter` in `src/types/todo.ts`).
`status` is one of `"all" | "active" | "completed"` when present. -/
structure TodoFilter where
  status : Option String
  priority : Option String
  tags : Option (List String)
  search : Option String
deriving DecidableEq, Repr

/-- Character-list version of `String.startsWith`. -/
def startsWithChars : List Char → List Char → Bool
  | [], _ => true
  | _ :: _, [] => false
  | c :: cs, d :: ds => c == d && startsWithChars cs ds

/-- Does `hay` contain `sub` as a contiguous run?  Models JavaScript
`String.prototype.includes`. -/
def hasInfixChars (sub : List Char) : List Char → Bool
  | [] => startsWithChars sub []
  | c :: rest => startsWithChars sub (c :: rest) || hasInfixChars sub rest

/-- `strIncludes hay sub` models `hay.includes(sub)` in JavaScript. -/
def strIncludes (hay sub : String) : Bool :=
  hasInfixChars sub.toList hay.toList

/-- JavaScript `String.prototype.trim`: strip whitespace from both ends.
Written over the character list so that it evaluates by kernel reduction
(`String.trim` is defined by well-founded recursion over byte positions
and does not). -/
def jsTrim (s : String) : String :=
  ⟨((s.toList.dropWhile Char.isWhitespace).reverse.dropWhile Char.isWhitespace).reverse⟩

/-- The success-path body of `toggleTodos` in `src/store/todoStore.ts`:
find the first todo (in list order) whose id occurs in `ids`; if none,
return the list unchanged; otherwise set `completed` of every todo whose
id occurs in `ids` to the inverse of that first todo's `completed`, also
stamping `updatedAt` with the current time. -/
def toggleTodosPure (todos : List Todo) (ids : List String) (now : Int) : List Todo :=
  match todos.find? (fun t => ids.contains t.id) with
  | none => todos
  | some firstTodo =>
    let newCompletedState := !firstTodo.completed
    todos.map (fun t =>
      if ids.contains t.id then
        { t with completed := newCompletedState, updatedAt := now }
      else t)

/-- The descending-creation-time order used by the derived views: `a` may
come before `b` when `b.createdAt ≤ a.createdAt` (newest first).  Models
the comparator `(a, b) => b.createdAt.getTime() - a.createdAt.getTime()`. -/
def createdDesc (a b : Todo) : Prop := b.createdAt ≤ a.createdAt

instance : DecidableRel createdDesc := fun a b => Int.decLe b.createdAt a.createdAt

instance : IsTotal Todo createdDesc := ⟨fun a b => le_total b.createdAt a.createdAt⟩

instance : IsTrans Todo createdDesc := ⟨fun _ _ _ h1 h2 => le_trans h2 h1⟩

/-- `filtered.sort((a, b) => b.createdAt.getTime() - a.createdAt.getTime())`:
`Array.prototype.sort` modelled as a comparison sort under `createdDesc`. -/
def sortByCreatedDesc (l : List Todo) : List Todo :=
  l.insertionSort createdDesc

/-- One search probe of the store's search stage: the lowercased search
term occurs in the title, the description (when present), or some tag. -/
def searchPass (s : String) (t : Todo) : Bool :=
  let searchLower := s.toLower
  strIncludes t.title.toLower searchLower ||
    (match t.description with
     | some d => strIncludes d.toLower searchLower
     | none => false) ||
    t.tags.any (fun tag => strIncludes tag.toLower searchLower)

/-- `getFilteredTodos` from `src/store/todoStore.ts`: successive filter
stages (status, priority, tags, search) followed by the descending
`createdAt` sort.  The `if`-guards mirror the JavaScript truthiness tests
(`filter.priority`, `filter.tags && filter.tags.length > 0`,
`filter.search`), under which an empty string or empty tag list skips the
stage exactly like an absent field. -/
def getFilteredTodos (todos : List Todo) (filter : TodoFilter) : List Todo :=
  let s1 :=
    if filter.status = some "active" then todos.filter (fun t => !t.completed)
    else if filter.status = some "completed" then todos.filter (fun t => t.completed)
    else todos
  let s2 :=
    match filter.priority with
    | some p => if p ≠ "" then s1.filter (fun t => t.priority == p) else s1
    | none => s1
  let s3 :=
    match filter.tags with
    | some ts => if ts.length > 0 then s2.filter (fun t => ts.any (fun tag => t.tags.contains tag)) else s2
    | none => s2
  let s4 :=
    match filter.search with
    | some s => if s ≠ "" then s3.filter (fun t => searchPass s t) else s3
    | none => s3
  sortByCreatedDesc s4

/-- Claim-side status stage: `active` means not completed, `completed`
means completed; an unset status (or `"all"`, which names the absence of
a constraint in the filter's domain) passes everything. -/
def statusStage (status : Option String) (t : Todo) : Bool :=
  if status = some "active" then !t.completed
  else if status = some "completed" then t.completed
  else true

/-- Claim-side priority stage: equality with the requested priority; unset
(or the empty string, which the TypeScript enum domain excludes and the
code's truthiness test skips) passes everything. -/
def priorityStage (priority : Option String) (t : Todo) : Bool :=
  match priority with
  | some p => if p ≠ "" then t.priority == p else true
  | none => true

/-- Claim-side tags stage, OR semantics: the todo carries at least one tag
of the filter's tag set.  An unset or empty tag set is no constraint. -/
def tagsStage (tags : Option (List String)) (t : Todo) : Bool :=
  match tags with
  | some ts => if ts.length > 0 then ts.any (fun tag => t.tags.contains tag) else true
  | none => true

/-- Claim-side search stage: case-insensitive substring match against the
title, the description, or any tag; an unset or empty term passes all. -/
def searchStage (search : Option String) (t : Todo) : Bool :=
  match search with
  | some s => if s ≠ "" then searchPass s t else true
  | none => true

/-- Conjunction of the four independently optional filter stages; this is
the predicate the claim about `getFilteredTodos` describes. -/
def passesFilter (filter : TodoFilter) (t : Todo) : Bool :=
  statusStage filter.status t && priorityStage filter.priority t &&
    tagsStage filter.tags t && searchStage filter.search t

/-- `getStats` from `src/store/todoStore.ts`. -/
def getStats (todos : List Todo) (now : Int) : Nat × Nat × Nat × Nat :=
  (todos.length,
   (todos.filter (fun t => t.completed)).length,
   (todos.filter (fun t => !t.completed)).length,
   (todos.filter (fun t =>
     !t.completed && (match t.dueDate with | some d => d < now | none => false))).length)

/-- Insert a record keeping the store sorted ascending by primary key
(IndexedDB stores records in key order). -/
def insertById (t : Todo) : List Todo → List Todo
  | [] => [t]
  | u :: us => if t.id < u.id then t :: u :: us else u :: insertById t us

/-- `IDBObjectStore.add` as used by `dbManager.addTodo`: insert-only;
rejects (the request errors, the promise rejects) when a record with the
same key already exists. -/
def storeAdd (t : Todo) (store : List Todo) : Except Unit (List Todo) :=
  if store.any (fun u => u.id == t.id) then .error ()
  else .ok (insertById t store)

/-- `IDBObjectStore.put` as used by `dbManager.updateTodo`: upsert —
replace the record under the key, or insert it when absent. -/
def storePut (t : Todo) (store : List Todo) : List Todo :=
  insertById t (store.filter (fun u => !(u.id == t.id)))

/-- `IDBObjectStore.delete` as used by `dbManager.deleteTodo`: remove the
record under the key; succeeds as a no-op when the key is absent. -/
def storeDelete (store : List Todo) (id : String) : List Todo :=
  store.filter (fun u => !(u.id == id))

/-- `dbManager.getTodosByFilter` from `src/utils/indexedDB.ts`: when a
priority is given (JavaScript truthiness, so a non-empty string), read the
`priority` index — records with that priority in primary-key order, i.e.
the priority-filtered store — otherwise `getAll()`; then filter by
`completed` in memory when that field is specified.  No sort is applied:
the result stays in store (primary-key) order. -/
def getTodosByFilter (store : List Todo) (completed : Option Bool) (priority : Option String) : List Todo :=
  let base :=
    match priority with
    | some p => if p ≠ "" then store.filter (fun t => t.priority == p) else store
    | none => store
  match completed with
  | some c => base.filter (fun t => t.completed == c)
  | none => base

/-- The generic §4.2 derivation restricted to the `completed` and
`priority` dimensions: build the corresponding `TodoFilter` (a required
completed state is the `active`/`completed` status) and run
`getFilteredTodos` over the stored records. -/
def genericByFilter (store : List Todo) (completed : Option Bool) (priority : Option String) : List Todo :=
  getFilteredTodos store
    { status :=
        match completed with
        | some true => some "completed"
        | some false => some "active"
        | none => none,
      priority := priority,
      tags := none,
      search := none }

/-- An arbitrary JSON value of a request body, for the fields the handlers
probe with `typeof` / `Array.isArray` / truthiness tests. -/
inductive JVal where
  | jnull
  | jbool (b : Bool)
  | jnum (n : Int)
  | jstr (s : String)
  | jarr (elems : List JVal)

/-- JavaScript truthiness of a JSON value. -/
def jsTruthy : JVal → Bool
  | .jnull => false
  | .jbool b => b
  | .jnum n => n != 0
  | .jstr s => s != ""
  | .jarr _ => true

/-- `new Date(v)` on a JSON value, as an `Int` timestamp.  A numeric value
is taken as-is; the result of parsing any other value is abstracted to `0`
(no claim depends on the parsed timestamp, only on whether the conversion
happens at all). -/
def dateOfJVal : JVal → Int
  | .jnum n => n
  | _ => 0

/-- `tags.filter(tag => typeof tag === 'string' && tag.trim())`: keep
exactly the string entries whose trim is non-empty, verbatim (the original
string is kept, not its trim). -/
def filterTagsJ (xs : List JVal) : List String :=
  xs.filterMap (fun v =>
    match v with
    | .jstr s => if jsTrim s ≠ "" then some s else none
    | _ => none)

/-- A request body for `POST /api/todos` and `PUT /api/todos/[id]`.
Fields the code type-tests carry arbitrary `JVal`s; fields it spreads
through unchanged (`completed`, `priority`, `createdAt`, `id`) carry their
TypeScript-declared types, modelling well-typed JSON for them.  `none`
means the key is absent from the body (JavaScript `undefined`). -/
structure ReqBody where
  title : Option JVal
  description : Option JVal
  priority : Option String
  dueDate : Option JVal
  tags : Option JVal
  completed : Option Bool
  createdAt : Option Int
  id : Option String

/-- Errors of the single-resource and collection handlers. -/
inductive ApiErr where
  | badRequest
  | notFound
  | internal
deriving DecidableEq, Repr

/-- `description?.trim() || undefined` in the POST handler: an absent or
null description stays absent, a blank string collapses to absent, any
other string is trimmed; `.trim()` on a non-string throws (a 500). -/
def postDesc : Option JVal → Except Unit (Option String)
  | none => .ok none
  | some .jnull => .ok none
  | some (.jstr s) => .ok (if jsTrim s = "" then none else some (jsTrim s))
  | some _ => .error ()

/-- The `newTodo` record the POST handler builds: trimmed title,
`completed: false`, priority defaulting to `"medium"`,
truthiness-guarded `dueDate` conversion, and tags filtered when an array
and `[]` otherwise.  `s` is the validated title string and `d` the
prepared description. -/
def postBuild (body : ReqBody) (s : String) (d : Option String) (newId : String) (now : Int) :
    Todo :=
  { id := newId,
    title := jsTrim s,
    description := d,
    completed := false,
    priority := (body.priority).getD "medium",
    dueDate :=
      match body.dueDate with
      | some v => if jsTruthy v then some (dateOfJVal v) else none
      | none => none,
    tags :=
      match body.tags with
      | some (.jarr xs) => filterTagsJ xs
      | some _ => []
      | none => [],
    createdAt := now,
    updatedAt := now }

/-- `POST /api/todos` from `src/app/api/todos/route.ts`: validate the
title (`!title || typeof title !== 'string' || title.trim().length === 0`
is a 400), build `newTodo` via `postBuild`, then `dbManager.addTodo` (a
rejection is caught into a 500).  `newId` stands for
`Date.now().toString() + Math.random().toString(36).substr(2, 9)` and
`now` for `new Date()`. -/
def postTodo (body : ReqBody) (newId : String) (now : Int) (store : List Todo) :
    Except ApiErr (Todo × List Todo) :=
  match body.title with
  | some (.jstr s) =>
    if jsTrim s = "" then .error .badRequest
    else
      match postDesc body.description with
      | .error _ => .error .internal
      | .ok d =>
        let newTodo : Todo := postBuild body s d newId now
        match storeAdd newTodo store with
        | .error _ => .error .internal
        | .ok store' => .ok (newTodo, store')
  | _ => .error .badRequest

/-- `body.description?.trim()` in the PUT handler: absent or null stays
absent (optional chaining), a string is trimmed — a blank string stays a
(present) empty string — and `.trim()` on any other value throws. -/
def putDesc : Option JVal → Except Unit (Option String)
  | none => .ok none
  | some .jnull => .ok none
  | some (.jstr s) => .ok (some (jsTrim s))
  | some _ => .error ()

/-- Title validation of the PUT handler: when the body carries a `title`
key it must be a string that is non-empty after trimming. -/
def putTitleOk (title : Option JVal) : Bool :=
  match title with
  | none => true
  | some (.jstr s) => jsTrim s ≠ ""
  | some _ => false

/-- The record produced by `{ ...existingTodo, ...updates, updatedAt: new
Date() }` in the PUT handler, after undefined-valued keys were removed
from `updates`: a prepared field overrides the existing one only when it
is present (not `undefined`). -/
def mergePut (e : Todo) (body : ReqBody) (descUpd : Option String) (now : Int) : Todo :=
  { id := (body.id).getD e.id,
    title :=
      match body.title with
      | some (.jstr s) => jsTrim s
      | _ => e.title,
    description :=
      match descUpd with
      | some d => some d
      | none => e.description,
    completed := (body.completed).getD e.completed,
    priority := (body.priority).getD e.priority,
    dueDate :=
      match body.dueDate with
      | some v => if jsTruthy v then some (dateOfJVal v) else e.dueDate
      | none => e.dueDate,
    tags :=
      match body.tags with
      | some (.jarr xs) => filterTagsJ xs
      | _ => e.tags,
    createdAt := (body.createdAt).getD e.createdAt,
    updatedAt := now }

/-- `PUT /api/todos/[id]` from `src/app/api/todos/[id]/route.ts`:
validate the title when provided (400), prepare the updates — where the
description trim can throw (500) — drop undefined-valued keys, look the
todo up (404 when absent), merge, stamp `updatedAt`, and persist with
`dbManager.updateTodo`. -/
def putTodo (store : List Todo) (id : String) (body : ReqBody) (now : Int) :
    Except ApiErr (Todo × List Todo) :=
  if !putTitleOk body.title then .error .badRequest
  else
    match putDesc body.description with
    | .error _ => .error .internal
    | .ok descUpd =>
      match store.find? (fun t => t.id == id) with
      | none => .error .notFound
      | some existingTodo =>
        let updatedTodo := mergePut existingTodo body descUpd now
        .ok (updatedTodo, storePut updatedTodo store)

/-- A request body for `PATCH /api/todos/[id]`, which performs an
unchecked shallow merge.  Fields carry their TypeScript-declared types
(well-typed JSON); `none` means the key is absent from the body. -/
structure PatchBody where
  id : Option String
  title : Option String
  description : Option String
  completed : Option Bool
  priority : Option String
  dueDate : Option Int
  tags : Option (List String)
  createdAt : Option Int
deriving DecidableEq, Repr

/-- The record produced by the PATCH handler's unchecked shallow merge
`{ ...existingTodo, ...body, updatedAt: new Date() }`: every present body
field overrides the existing one with no validation and no
transformation. -/
def patchMerge (e : Todo) (body : PatchBody) (now : Int) : Todo :=
  { id := (body.id).getD e.id,
    title := (body.title).getD e.title,
    description :=
      match body.description with
      | some d => some d
      | none => e.description,
    completed := (body.completed).getD e.completed,
    priority := (body.priority).getD e.priority,
    dueDate :=
      match body.dueDate with
      | some d => some d
      | none => e.dueDate,
    tags := (body.tags).getD e.tags,
    createdAt := (body.createdAt).getD e.createdAt,
    updatedAt := now }

/-- `PATCH /api/todos/[id]`: look the todo up (404 when absent), shallow
merge via `patchMerge`, and persist. -/
def patchTodo (store : List Todo) (id : String) (body : PatchBody) (now : Int) :
    Except ApiErr (Todo × List Todo) :=
  match store.find? (fun t => t.id == id) with
  | none => .error .notFound
  | some e =>
    let updatedTodo : Todo := patchMerge e body now
    .ok (updatedTodo, storePut updatedTodo store)

/-- The response body of the bulk `DELETE /api/todos` handler. -/
structure BulkDeleteResp where
  deleted : List String
  count : Nat
deriving DecidableEq, Repr

/-- Bulk `DELETE /api/todos` from `src/app/api/todos/route.ts`: a 400 when
`ids` is empty (or not an array — unrepresentable here); otherwise each id
is deleted independently, an id whose `dbManager.deleteTodo` rejects
(`fails id = true`) is logged and skipped, and the response reports the
succeeding ids and their count with success status. -/
def serverBulkDelete (ids : List String) (store : List Todo) (fails : String → Bool) :
    Except Unit (BulkDeleteResp × List Todo) :=
  if ids.isEmpty then .error ()
  else
    let r := ids.foldl
      (fun (acc : List String × List Todo) i =>
        if fails i then acc else (acc.1 ++ [i], storeDelete acc.2 i))
      ([], store)
    .ok ({ deleted := r.1, count := r.1.length }, r.2)

/-- The zustand store's client-side state (`TodoState` minus the action
closures): the in-memory list, the loading flag, the single error slot,
and the editing pointer. -/
structure ClientState where
  todos : List Todo
  loading : Bool
  error : Option String
  editingTodo : Option Todo
deriving Repr

/-- `addTodo` after its `api.createTodo` call resolved: prepend the
created todo on success; on failure record the error and leave the list
unchanged.  (The transient `loading: true` phase is folded away; `error`
was cleared on entry.) -/
def addTodoClient (st : ClientState) (res : Except Unit Todo) : ClientState :=
  match res with
  | .ok newTodo => { st with todos := newTodo :: st.todos, loading := false, error := none }
  | .error _ => { st with loading := false, error := some "Failed to add todo" }

/-- `updateTodo` after its `api.updateTodo` call resolved: on success
replace the matching entry with the server's todo and clear the editing
pointer; on failure record the error and leave the list unchanged. -/
def updateTodoClient (st : ClientState) (id : String) (res : Except Unit Todo) : ClientState :=
  match res with
  | .ok updatedTodo =>
    { st with
      todos := st.todos.map (fun t => if t.id == id then updatedTodo else t),
      loading := false, error := none, editingTodo := none }
  | .error _ => { st with loading := false, error := some "Failed to update todo" }

/-- `deleteTodo` after its `api.deleteTodo` call resolved. -/
def deleteTodoClient (st : ClientState) (id : String) (res : Except Unit Unit) : ClientState :=
  match res with
  | .ok _ =>
    { st with todos := st.todos.filter (fun t => !(t.id == id)), loading := false, error := none }
  | .error _ => { st with loading := false, error := some "Failed to delete todo" }

/-- `deleteTodos` after its `api.bulkDelete` call resolved: on success the
client prunes every requested id from memory — it does not read the
response's `deleted` list. -/
def deleteTodosClient (st : ClientState) (ids : List String) (res : Except Unit Unit) : ClientState :=
  match res with
  | .ok _ =>
    { st with todos := st.todos.filter (fun t => !(ids.contains t.id)), loading := false, error := none }
  | .error _ => { st with loading := false, error := some "Failed to delete todos" }

/-- `toggleTodo`: a wrapper around `updateTodo` with the inverted
`completed` flag; a silent no-op when the id is not in memory. -/
def toggleTodoClient (st : ClientState) (id : String) (res : Except Unit Todo) : ClientState :=
  match st.todos.find? (fun t => t.id == id) with
  | some _ => updateTodoClient st id res
  | none => st

/-- `toggleTodos` after its `api.bulkUpdate` call resolved (the success
path is `toggleTodosPure`); a silent no-op when no id matches. -/
def toggleTodosClient (st : ClientState) (ids : List String) (res : Except Unit Unit) (now : Int) :
    ClientState :=
  match st.todos.find? (fun t => ids.contains t.id) with
  | none => st
  | some firstTodo =>
    match res with
    | .ok _ =>
      { st with
        todos := st.todos.map (fun t =>
          if ids.contains t.id then
            { t with completed := !firstTodo.completed, updatedAt := now }
          else t),
        loading := false, error := none }
    | .error _ => { st with loading := false, error := some "Failed to toggle todos" }

/-- One `deleteTodos` invocation end to end: the bulk DELETE handler runs
against the durable store (with the per-id failure oracle `fails`), then
the client applies its update from the call's overall outcome.  Returns
the new client state and the new durable store. -/
def bulkDeleteFlow (client : ClientState) (server : List Todo) (ids : List String)
    (fails : String → Bool) : ClientState × List Todo :=
  match serverBulkDelete ids server fails with
  | .ok (_, server') => (deleteTodosClient client ids (.ok ()), server')
  | .error _ => (deleteTodosClient client ids (.error ()), server)

/-- Claim-side description of the POST 400 condition: the title is
missing, not a string, or blank after trimming. -/
def titleMissingNotStringOrBlank (title : Option JVal) : Bool :=
  match title with
  | some (.jstr s) => jsTrim s == ""
  | some _ => true
  | none => true

/-- `List.find?` returns the element at the least index satisfying the
predicate. -/
theorem find?_eq_get_of_least {α : Type} (p : α → Bool) (l : List α) (k : Nat)
    (hk : k < l.length) (hp : p (l.get ⟨k, hk⟩) = true)
    (hmin : ∀ j (hj : j < l.length), j < k → p (l.get ⟨j, hj⟩) = false) :
    l.find? p = some (l.get ⟨k, hk⟩) := by
  induction l generalizing k with
  | nil => exact absurd hk (Nat.not_lt_zero k)
  | cons a l ih =>
    cases k with
    | zero =>
      simp only [List.get] at hp
      simp [List.find?_cons, hp]
    | succ k =>
      have ha : p a = false := hmin 0 (Nat.succ_pos _) (Nat.succ_pos _)
      simp only [List.get] at hp
      rw [List.find?_cons, ha]
      exact ih k (Nat.lt_of_succ_lt_succ hk) hp
        (fun j hj hjk => hmin (j + 1) (Nat.succ_lt_succ hj) (Nat.succ_lt_succ hjk))

/-- C1.  `toggleTodos` (store mutator, success path): if no in-memory todo
has an id in `ids`, the call is a silent no-op; otherwise the reference
flag is the `completed` state of the first todo in list order whose id
occurs in `ids` (the least such index), and every todo whose id occurs in
`ids` gets `completed` set to the inverse of that one flag, regardless of
its own prior state, while all other todos are untouched. -/
theorem toggleTodos_first_match_policy (todos : List Todo) (ids : List String) (now : Int)
    (hne : ids ≠ []) :
    ((∀ t ∈ todos, t.id ∉ ids) → toggleTodosPure todos ids now = todos) ∧
    (∀ k (hk : k < todos.length),
      (todos.get ⟨k, hk⟩).id ∈ ids →
      (∀ j (hj : j < todos.length), j < k → (todos.get ⟨j, hj⟩).id ∉ ids) →
      toggleTodosPure todos ids now =
        todos.map (fun t =>
          if t.id ∈ ids then
            { t with completed := !(todos.get ⟨k, hk⟩).completed, updatedAt := now }
          else t)) := by
  constructor
  · intro hnone
    unfold toggleTodosPure
    have hfind : todos.find? (fun t => ids.contains t.id) = none := by
      rw [List.find?_eq_none]
      intro t ht
      simpa using hnone t ht
    rw [hfind]
  · intro k hk hmem hminmem
    unfold toggleTodosPure
    have hfind : todos.find? (fun t => ids.contains t.id) = some (todos.get ⟨k, hk⟩) := by
      apply find?_eq_get_of_least
      · simpa using hmem
      · intro j hj hjk
        simpa using hminmem j hj hjk
    rw [hfind]
    apply List.map_congr_left
    intro t _
    by_cases h : t.id ∈ ids <;> simp [h]

/-- Witness for C1 at a concrete input: `toggleMany(["1","2"])` where
todo "1" (the first match in list order) has `completed = false` makes
both "1" and "2" completed, although "2" already was. -/
theorem toggleTodos_first_match_policy_witness :
    toggleTodosPure
        [⟨"1", "Alpha", none, false, "medium", none, [], 0, 0⟩,
         ⟨"2", "Beta", none, true, "high", none, [], 1, 1⟩] ["1", "2"] 7 =
      [⟨"1", "Alpha", none, true, "medium", none, [], 0, 7⟩,
       ⟨"2", "Beta", none, true, "high", none, [], 1, 7⟩] := by
  have h := (toggleTodos_first_match_policy
    [⟨"1", "Alpha", none, false, "medium", none, [], 0, 0⟩,
     ⟨"2", "Beta", none, true, "high", none, [], 1, 1⟩] ["1", "2"] 7 (by decide)).2
    0 (by decide) (by decide) (fun j hj hjk => absurd hjk (Nat.not_lt_zero j))
  rw [h]
  decide

/-- The status stage of the chain filters by exactly `statusStage`. -/
theorem statusChain_eq (l : List Todo) (st : Option String) :
    (if st = some "active" then l.filter (fun t => !t.completed)
     else if st = some "completed" then l.filter (fun t => t.completed)
     else l) = l.filter (statusStage st) := by
  by_cases h1 : st = some "active"
  · rw [if_pos h1]
    exact List.filter_congr (fun t _ => by simp [statusStage, h1])
  · by_cases h2 : st = some "completed"
    · rw [if_neg h1, if_pos h2]
      exact List.filter_congr (fun t _ => by simp [statusStage, h1, h2])
    · rw [if_neg h1, if_neg h2]
      exact (List.filter_eq_self.mpr (fun t _ => by simp [statusStage, h1, h2])).symm

/-- The priority stage of the chain filters by exactly `priorityStage`. -/
theorem priorityChain_eq (l : List Todo) (pr : Option String) :
    (match pr with
     | some p => if p ≠ "" then l.filter (fun t => t.priority == p) else l
     | none => l) = l.filter (priorityStage pr) := by
  rcases pr with _ | p
  · exact (List.filter_eq_self.mpr (fun t _ => by simp [priorityStage])).symm
  · by_cases hp : p = ""
    · simp only [hp, ne_eq, not_true_eq_false, if_false]
      exact (List.filter_eq_self.mpr (fun t _ => by simp [priorityStage])).symm
    · simp only [ne_eq, hp, not_false_eq_true, if_true]
      exact List.filter_congr (fun t _ => by simp [priorityStage, hp])

/-- The tags stage of the chain filters by exactly `tagsStage`. -/
theorem tagsChain_eq (l : List Todo) (tg : Option (List String)) :
    (match tg with
     | some ts => if ts.length > 0 then l.filter (fun t => ts.any (fun tag => t.tags.contains tag)) else l
     | none => l) = l.filter (tagsStage tg) := by
  rcases tg with _ | ts
  · exact (List.filter_eq_self.mpr (fun t _ => by simp [tagsStage])).symm
  · dsimp only
    by_cases ht : ts.length > 0
    · rw [if_pos ht]
      exact List.filter_congr (fun t _ => by simp [tagsStage, ht])
    · rw [if_neg ht]
      exact (List.filter_eq_self.mpr (fun t _ => by simp [tagsStage, ht])).symm

/-- The search stage of the chain filters by exactly `searchStage`. -/
theorem searchChain_eq (l : List Todo) (se : Option String) :
    (match se with
     | some s => if s ≠ "" then l.filter (fun t => searchPass s t) else l
     | none => l) = l.filter (searchStage se) := by
  rcases se with _ | s
  · exact (List.filter_eq_self.mpr (fun t _ => by simp [searchStage])).symm
  · by_cases hs : s = ""
    · simp only [hs, ne_eq, not_true_eq_false, if_false]
      exact (List.filter_eq_self.mpr (fun t _ => by simp [searchStage])).symm
    · simp only [ne_eq, hs, not_false_eq_true, if_true]
      exact List.filter_congr (fun t _ => by simp [searchStage, hs])

/-- `getFilteredTodos` is the sort of the single filter by the conjunction
of the four stage predicates. -/
theorem getFilteredTodos_eq (todos : List Todo) (f : TodoFilter) :
    getFilteredTodos todos f = sortByCreatedDesc (todos.filter (passesFilter f)) := by
  rcases f with ⟨st, pr, tg, se⟩
  unfold getFilteredTodos
  dsimp only
  rw [statusChain_eq, priorityChain_eq, tagsChain_eq, searchChain_eq,
    List.filter_filter, List.filter_filter, List.filter_filter]
  congr 1
  apply List.filter_congr
  intro t _
  simp only [passesFilter]
  cases statusStage st t <;> cases priorityStage pr t <;>
    cases tagsStage tg t <;> cases searchStage se t <;> rfl

/-- C2.  `getFilteredTodos` returns exactly the todos passing every active
stage — status, priority equality, any-tag OR match, case-insensitive
substring search over title/description/tags — composed by AND with each
stage skipped when its filter field is unset, and the result is sorted
descending by `createdAt` (newest first): the output is a permutation of
the input filtered by `passesFilter` and is `createdDesc`-sorted. -/
theorem getFilteredTodos_exactly_passing_and_sorted (todos : List Todo) (f : TodoFilter) :
    (getFilteredTodos todos f).Perm (todos.filter (passesFilter f)) ∧
    List.Sorted createdDesc (getFilteredTodos todos f) := by
  rw [getFilteredTodos_eq]
  exact ⟨List.perm_insertionSort createdDesc _, List.sorted_insertionSort createdDesc _⟩

/-- `getTodosByFilter` is a single filter of the store by the conjunction
of its two stage predicates (priority narrows first, completed second). -/
theorem getTodosByFilter_eq (store : List Todo) (c : Option Bool) (p : Option String) :
    getTodosByFilter store c p =
      store.filter (fun t =>
        priorityStage p t &&
          (match c with
           | some b => t.completed == b
           | none => true)) := by
  unfold getTodosByFilter
  have hbase :
      (match p with
       | some q => if q ≠ "" then store.filter (fun t => t.priority == q) else store
       | none => store) = store.filter (priorityStage p) := priorityChain_eq store p
  rcases c with _ | b
  · dsimp only
    rw [hbase]
    exact List.filter_congr (fun t _ => by cases priorityStage p t <;> rfl)
  · dsimp only
    rw [hbase, List.filter_filter]
    exact List.filter_congr (fun t _ => by
      cases priorityStage p t <;> cases ht : t.completed == b <;> simp [ht])

/-- C6 (amended).  The persistence adapter's `getTodosByFilter` returns
the same todos as the generic in-memory derivation restricted to the
`completed` and `priority` fields — as a permutation (same multiset), the
ordering differing: the adapter keeps store (primary-key) order while the
generic derivation sorts by `createdAt` descending. -/
theorem getTodosByFilter_perm_generic (store : List Todo) (c : Option Bool) (p : Option String) :
    (getTodosByFilter store c p).Perm (genericByFilter store c p) := by
  unfold genericByFilter
  rw [getFilteredTodos_eq, getTodosByFilter_eq]
  refine List.Perm.trans ?_ (List.perm_insertionSort createdDesc _).symm
  apply List.Perm.of_eq
  apply List.filter_congr
  intro t _
  rcases c with _ | b
  · simp only [passesFilter, statusStage, tagsStage, searchStage]
    cases priorityStage p t <;> rfl
  · simp only [passesFilter, statusStage, tagsStage, searchStage]
    cases b
    · by_cases hc : t.completed <;> cases hpr : priorityStage p t <;>
        simp [hc, hpr]
    · by_cases hc : t.completed <;> cases hpr : priorityStage p t <;>
        simp [hc, hpr]

/-- Counterexample to C6 as stated: with two stored todos whose key order
is the reverse of their creation-recency order and an empty filter, the
adapter returns store order while the generic derivation returns newest
first, so the results are not identical. -/
theorem getTodosByFilter_order_differs :
    getTodosByFilter
        [⟨"a", "Alpha", none, false, "medium", none, [], 0, 0⟩,
         ⟨"b", "Beta", none, false, "medium", none, [], 5, 5⟩] none none ≠
      genericByFilter
        [⟨"a", "Alpha", none, false, "medium", none, [], 0, 0⟩,
         ⟨"b", "Beta", none, false, "medium", none, [], 5, 5⟩] none none := by
  decide

/-- The inserted record is a member of the insertion result. -/
theorem mem_insertById (t : Todo) (l : List Todo) : t ∈ insertById t l := by
  induction l with
  | nil => exact List.mem_singleton.mpr rfl
  | cons u us ih =>
    unfold insertById
    by_cases h : t.id < u.id
    · rw [if_pos h]
      exact List.mem_cons_self t (u :: us)
    · rw [if_neg h]
      exact List.mem_cons_of_mem u ih

/-- C8.  Persistence-adapter semantics: `add` (backed by
`IDBObjectStore.add`) fails exactly when a record with the same id is
already stored — insert, not upsert; `update` (backed by `put`) succeeds
even with no prior record under the id, storing the record — upsert; and
`delete` succeeds as a no-op when the id is absent, so deleting twice
gives no error and no further change the second time. -/
theorem adapter_add_update_delete_semantics :
    (∀ (store : List Todo) (t : Todo),
      storeAdd t store = .error () ↔ ∃ u ∈ store, u.id = t.id) ∧
    (∀ (store : List Todo) (t : Todo), t ∈ storePut t store) ∧
    (∀ (store : List Todo) (id : String),
      (∀ u ∈ store, u.id ≠ id) → storeDelete store id = store) ∧
    (∀ (store : List Todo) (id : String),
      storeDelete (storeDelete store id) id = storeDelete store id) := by
  refine ⟨?_, ?_, ?_, ?_⟩
  · intro store t
    unfold storeAdd
    by_cases h : store.any (fun u => u.id == t.id)
    · simp only [h, if_true, true_iff]
      rw [List.any_eq_true] at h
      obtain ⟨u, hu, hbeq⟩ := h
      exact ⟨u, hu, by simpa using hbeq⟩
    · simp only [h, if_false]
      constructor
      · intro hcontra
        exact absurd hcontra (by simp)
      · intro ⟨u, hu, hid⟩
        exact absurd (List.any_eq_true.mpr ⟨u, hu, by simpa using hid⟩) h
  · intro store t
    exact mem_insertById t _
  · intro store id h
    unfold storeDelete
    exact List.filter_eq_self.mpr (fun u hu => by simpa using h u hu)
  · intro store id
    unfold storeDelete
    rw [List.filter_filter]
    exact List.filter_congr (fun u _ => by cases h : u.id == id <;> simp [h])

/-- Witness for C8: adding a record whose id is already stored errors,
and deleting an absent id returns the store unchanged. -/
theorem adapter_add_update_delete_semantics_witness :
    storeAdd ⟨"a", "Other", none, true, "low", none, [], 2, 2⟩
        [⟨"a", "Alpha", none, false, "medium", none, [], 0, 0⟩] = .error () ∧
    storeDelete [⟨"a", "Alpha", none, false, "medium", none, [], 0, 0⟩] "zz" =
      [⟨"a", "Alpha", none, false, "medium", none, [], 0, 0⟩] := by
  constructor
  · exact (adapter_add_update_delete_semantics.1 _ _).mpr
      ⟨⟨"a", "Alpha", none, false, "medium", none, [], 0, 0⟩, by simp, rfl⟩
  · exact adapter_add_update_delete_semantics.2.2.1 _ "zz" (by decide)

/-- Folding `storeDelete` over a list of ids deletes exactly the records
whose id occurs in the list. -/
theorem foldl_storeDelete_eq_filter (ids : List String) (store : List Todo) :
    ids.foldl storeDelete store = store.filter (fun t => !(ids.contains t.id)) := by
  induction ids generalizing store with
  | nil => simp
  | cons i rest ih =>
    rw [List.foldl_cons, ih]
    unfold storeDelete
    rw [List.filter_filter]
    apply List.filter_congr
    intro t _
    rw [List.contains_cons]
    cases h1 : t.id == i <;> cases h2 : rest.contains t.id <;> simp [h1, h2]

/-- The bulk-delete loop accumulates exactly the non-failing ids, in
order, and deletes exactly those from the store. -/
theorem bulkDeleteFold (ids : List String) (fails : String → Bool)
    (acc : List String × List Todo) :
    ids.foldl
        (fun (a : List String × List Todo) i =>
          if fails i then a else (a.1 ++ [i], storeDelete a.2 i))
        acc =
      (acc.1 ++ ids.filter (fun i => !fails i),
       (ids.filter (fun i => !fails i)).foldl storeDelete acc.2) := by
  induction ids generalizing acc with
  | nil => simp
  | cons i rest ih =>
    rw [List.foldl_cons]
    by_cases h : fails i
    · rw [if_pos h, ih]
      simp [List.filter_cons, h]
    · rw [if_neg h, ih]
      simp [List.filter_cons, h]

/-- C9 (amended).  For every non-empty id list, bulk `DELETE /todos`
deletes each id independently: ids whose individual delete throws are
skipped without aborting the batch, the durable store loses exactly the
succeeding ids, and the response is a success listing exactly the ids
whose deletes succeeded together with their count — a partial failure is
never reported as an error. -/
theorem bulk_delete_partial_success (ids : List String) (store : List Todo)
    (fails : String → Bool) (hne : ids ≠ []) :
    serverBulkDelete ids store fails =
      .ok ({ deleted := ids.filter (fun i => !fails i),
             count := (ids.filter (fun i => !fails i)).length },
           store.filter (fun t => !((ids.filter (fun i => !fails i)).contains t.id))) := by
  unfold serverBulkDelete
  rw [if_neg (by simpa [List.isEmpty_eq_false] using hne)]
  rw [bulkDeleteFold, foldl_storeDelete_eq_filter]
  simp

/-- Witness for C9 (amended) at the spec's own scenario: deleting
`["1","2","3"]` where deleting "2" throws yields success with
`{deleted: ["1","3"], count: 2}` and only "2" left durable. -/
theorem bulk_delete_partial_success_witness :
    serverBulkDelete ["1", "2", "3"]
        [⟨"1", "A", none, false, "medium", none, [], 0, 0⟩,
         ⟨"2", "B", none, false, "medium", none, [], 1, 1⟩,
         ⟨"3", "C", none, false, "medium", none, [], 2, 2⟩]
        (fun i => i == "2") =
      .ok ({ deleted := ["1", "3"], count := 2 },
           [⟨"2", "B", none, false, "medium", none, [], 1, 1⟩]) := by
  rw [bulk_delete_partial_success _ _ _ (by decide)]
  rfl

/-- Counterexample to C9 as stated over every id list: with the empty id
list the handler responds 400 `IDs array is required` — an error, not a
success. -/
theorem bulk_delete_empty_ids_is_error :
    serverBulkDelete [] [] (fun _ => false) = .error () := rfl

/-- C3 (amended).  Every Collection Store mutator modifies the in-memory
list only after its persistence/API call reports success — on failure the
list is unchanged (no optimistic update); but the two stores are only
guaranteed to agree when every per-record durable operation succeeded: a
fully successful bulk delete over agreeing stores leaves them agreeing,
while a partial per-id failure makes them diverge (see the
counterexample). -/
theorem mutators_update_memory_only_after_success :
    (∀ st : ClientState, (addTodoClient st (.error ())).todos = st.todos) ∧
    (∀ (st : ClientState) (id : String), (updateTodoClient st id (.error ())).todos = st.todos) ∧
    (∀ (st : ClientState) (id : String), (deleteTodoClient st id (.error ())).todos = st.todos) ∧
    (∀ (st : ClientState) (ids : List String),
      (deleteTodosClient st ids (.error ())).todos = st.todos) ∧
    (∀ (st : ClientState) (id : String), (toggleTodoClient st id (.error ())).todos = st.todos) ∧
    (∀ (st : ClientState) (ids : List String) (now : Int),
      (toggleTodosClient st ids (.error ()) now).todos = st.todos) ∧
    (∀ (client : ClientState) (server : List Todo) (ids : List String) (fails : String → Bool),
      ids ≠ [] → (∀ i ∈ ids, fails i = false) →
      (∀ t : Todo, t ∈ client.todos ↔ t ∈ server) →
      ∀ t : Todo,
        t ∈ (bulkDeleteFlow client server ids fails).1.todos ↔
          t ∈ (bulkDeleteFlow client server ids fails).2) := by
  refine ⟨fun st => rfl, fun st id => rfl, fun st id => rfl, fun st ids => rfl, ?_, ?_, ?_⟩
  · intro st id
    unfold toggleTodoClient
    cases st.todos.find? (fun t => t.id == id) <;> rfl
  · intro st ids now
    unfold toggleTodosClient
    cases st.todos.find? (fun t => ids.contains t.id) <;> rfl
  · intro client server ids fails hne hok hagree t
    have hfilter : ids.filter (fun i => !fails i) = ids :=
      List.filter_eq_self.mpr (fun i hi => by simp [hok i hi])
    have hsrv := bulk_delete_partial_success ids server fails hne
    rw [hfilter] at hsrv
    unfold bulkDeleteFlow
    rw [hsrv]
    simp only [deleteTodosClient, List.mem_filter]
    exact and_congr_left (fun _ => hagree t)

/-- Witness for C3 (amended): a fully successful bulk delete over two
agreeing one-element stores leaves membership agreement intact. -/
theorem mutators_update_memory_only_after_success_witness :
    (⟨"a", "Alpha", none, false, "medium", none, [], 0, 0⟩ : Todo) ∈
        (bulkDeleteFlow ⟨[⟨"a", "Alpha", none, false, "medium", none, [], 0, 0⟩], false, none, none⟩
          [⟨"a", "Alpha", none, false, "medium", none, [], 0, 0⟩] ["a"] (fun _ => false)).1.todos ↔
      (⟨"a", "Alpha", none, false, "medium", none, [], 0, 0⟩ : Todo) ∈
        (bulkDeleteFlow ⟨[⟨"a", "Alpha", none, false, "medium", none, [], 0, 0⟩], false, none, none⟩
          [⟨"a", "Alpha", none, false, "medium", none, [], 0, 0⟩] ["a"] (fun _ => false)).2 :=
  mutators_update_memory_only_after_success.2.2.2.2.2.2
    ⟨[⟨"a", "Alpha", none, false, "medium", none, [], 0, 0⟩], false, none, none⟩
    [⟨"a", "Alpha", none, false, "medium", none, [], 0, 0⟩] ["a"] (fun _ => false)
    (by decide) (fun i _ => rfl)
    (fun t => Iff.rfl)
    ⟨"a", "Alpha", none, false, "medium", none, [], 0, 0⟩

/-- Counterexample to C3 as stated: a bulk delete of `["a","b"]` over
initially agreeing stores, where the durable delete of "b" throws,
reports overall success (the client even clears its error slot), yet the
client prunes both ids while the durable store still holds "b" — the two
stores diverge after a successful mutator. -/
theorem bulk_delete_stores_diverge :
    (bulkDeleteFlow
        ⟨[⟨"a", "Alpha", none, false, "medium", none, [], 0, 0⟩,
          ⟨"b", "Beta", none, false, "medium", none, [], 1, 1⟩], false, none, none⟩
        [⟨"a", "Alpha", none, false, "medium", none, [], 0, 0⟩,
         ⟨"b", "Beta", none, false, "medium", none, [], 1, 1⟩]
        ["a", "b"] (fun i => i == "b")).1.error = none ∧
    (bulkDeleteFlow
        ⟨[⟨"a", "Alpha", none, false, "medium", none, [], 0, 0⟩,
          ⟨"b", "Beta", none, false, "medium", none, [], 1, 1⟩], false, none, none⟩
        [⟨"a", "Alpha", none, false, "medium", none, [], 0, 0⟩,
         ⟨"b", "Beta", none, false, "medium", none, [], 1, 1⟩]
        ["a", "b"] (fun i => i == "b")).1.todos = [] ∧
    (bulkDeleteFlow
        ⟨[⟨"a", "Alpha", none, false, "medium", none, [], 0, 0⟩,
          ⟨"b", "Beta", none, false, "medium", none, [], 1, 1⟩], false, none, none⟩
        [⟨"a", "Alpha", none, false, "medium", none, [], 0, 0⟩,
         ⟨"b", "Beta", none, false, "medium", none, [], 1, 1⟩]
        ["a", "b"] (fun i => i == "b")).2 =
      [⟨"b", "Beta", none, false, "medium", none, [], 1, 1⟩] := by
  refine ⟨rfl, rfl, rfl⟩

/-- C4 (amended).  `POST /todos` rejects with 400 exactly when the title
is missing, not a string, or blank after trimming; a created todo has the
trimmed title, `completed = false`, priority defaulting to `"medium"`
when absent, and tags `[]` when absent and otherwise the input array
filtered to string entries that are non-empty after trimming
(non-strings and blank strings silently dropped); and a valid title does
lead to a created todo (201) provided the description, when present, is a
string or null — a non-string description makes `description?.trim()`
throw, a 500 — and the generated id is fresh. -/
theorem post_validation_and_defaults (body : ReqBody) (newId : String) (now : Int)
    (store : List Todo) :
    ((postTodo body newId now store = .error .badRequest) ↔
      titleMissingNotStringOrBlank body.title = true) ∧
    (∀ (t : Todo) (store' : List Todo), postTodo body newId now store = .ok (t, store') →
      (∃ s, body.title = some (.jstr s) ∧ t.title = jsTrim s) ∧
      t.completed = false ∧
      t.priority = (body.priority).getD "medium" ∧
      (body.tags = none → t.tags = []) ∧
      (∀ xs, body.tags = some (.jarr xs) →
        t.tags = xs.filterMap (fun v =>
          match v with
          | .jstr s => if jsTrim s ≠ "" then some s else none
          | _ => none))) ∧
    (∀ s, body.title = some (.jstr s) → jsTrim s ≠ "" →
      (body.description = none ∨ body.description = some .jnull ∨
        ∃ ds, body.description = some (.jstr ds)) →
      (∀ u ∈ store, u.id ≠ newId) →
      ∃ (t : Todo) (store' : List Todo),
        postTodo body newId now store = .ok (t, store')) := by
  unfold postTodo titleMissingNotStringOrBlank
  rcases hT : body.title with _ | v
  · refine ⟨by simp, by simp, ?_⟩
    intro s hcontra
    exact absurd hcontra (by simp)
  · cases v with
    | jstr s =>
      dsimp only
      by_cases hs : jsTrim s = ""
      · rw [if_pos hs]
        refine ⟨by simp [hs], by simp, ?_⟩
        intro s2 hEq hs2 _ _
        obtain rfl : s = s2 := by simpa using hEq
        exact absurd hs hs2
      · rw [if_neg hs]
        rcases hd : postDesc body.description with e | d
        · refine ⟨by simp [hs], by simp, ?_⟩
          intro s2 _ _ hdok _
          rcases hdok with h | h | ⟨ds, h⟩ <;> rw [h] at hd <;> simp [postDesc] at hd
        · dsimp only
          refine ⟨?_, ?_, ?_⟩
          · constructor
            · intro h
              exfalso
              revert h
              split <;> simp
            · intro h
              exact absurd h (by simp [hs])
          · intro t store' hok
            revert hok
            split
            · simp
            · intro hok
              simp only [Except.ok.injEq, Prod.mk.injEq] at hok
              obtain ⟨ht, _⟩ := hok
              subst ht
              refine ⟨⟨s, rfl, rfl⟩, rfl, rfl, ?_, ?_⟩
              · intro h
                simp [postBuild, h]
              · intro xs h
                simp [postBuild, h, filterTagsJ]
          · intro s2 hEq hs2 _ hfresh
            obtain rfl : s = s2 := by simpa using hEq
            have hfalse : store.any (fun u => u.id == (postBuild body s d newId now).id) = false := by
              rw [List.any_eq_false]
              intro u hu
              simpa [postBuild] using hfresh u hu
            have hadd : storeAdd (postBuild body s d newId now) store =
                .ok (insertById (postBuild body s d newId now) store) := by
              unfold storeAdd
              rw [hfalse]
              rfl
            refine ⟨postBuild body s d newId now,
              insertById (postBuild body s d newId now) store, ?_⟩
            rw [hadd]
    | jnull =>
      refine ⟨by simp, by simp, ?_⟩
      intro s hcontra
      exact absurd hcontra (by simp)
    | jbool b =>
      refine ⟨by simp, by simp, ?_⟩
      intro s hcontra
      exact absurd hcontra (by simp)
    | jnum n =>
      refine ⟨by simp, by simp, ?_⟩
      intro s hcontra
      exact absurd hcontra (by simp)
    | jarr xs =>
      refine ⟨by simp, by simp, ?_⟩
      intro s hcontra
      exact absurd hcontra (by simp)

/-- Witness for C4: a blank title is rejected with 400, and the spec's
tag scenario `["work","","  ",123,null,"urgent"]` stores exactly
`["work","urgent"]`. -/
theorem post_validation_and_defaults_witness :
    postTodo ⟨some (.jstr "   "), none, none, none, none, none, none, none⟩ "n1" 3 [] =
      .error .badRequest ∧
    (⟨"n1", "X", none, false, "medium", none, ["work", "urgent"], 3, 3⟩ : Todo).tags =
      [JVal.jstr "work", JVal.jstr "", JVal.jstr "  ", JVal.jnum 123, JVal.jnull,
        JVal.jstr "urgent"].filterMap
        (fun v =>
          match v with
          | .jstr s => if jsTrim s ≠ "" then some s else none
          | _ => none) := by
  constructor
  · exact (post_validation_and_defaults
      ⟨some (.jstr "   "), none, none, none, none, none, none, none⟩ "n1" 3 []).1.mpr (by decide)
  · exact ((post_validation_and_defaults
      ⟨some (.jstr "X"), none, none, none,
        some (.jarr [JVal.jstr "work", JVal.jstr "", JVal.jstr "  ", JVal.jnum 123, JVal.jnull,
          JVal.jstr "urgent"]), none, none, none⟩ "n1" 3 []).2.1
      ⟨"n1", "X", none, false, "medium", none, ["work", "urgent"], 3, 3⟩
      [⟨"n1", "X", none, false, "medium", none, ["work", "urgent"], 3, 3⟩] rfl).2.2.2.2
      [JVal.jstr "work", JVal.jstr "", JVal.jstr "  ", JVal.jnum 123, JVal.jnull,
        JVal.jstr "urgent"] rfl

/-- Every tag kept by the write-boundary tag filter is non-blank after
trimming. -/
theorem filterTagsJ_nonblank (xs : List JVal) :
    ∀ s ∈ filterTagsJ xs, jsTrim s ≠ "" := by
  intro s hs
  unfold filterTagsJ at hs
  rw [List.mem_filterMap] at hs
  obtain ⟨v, _, hv⟩ := hs
  cases v with
  | jstr s0 =>
    dsimp only at hv
    by_cases h0 : jsTrim s0 = ""
    · rw [if_neg (by simpa using h0)] at hv
      exact absurd hv (by simp)
    · rw [if_pos h0] at hv
      obtain rfl := Option.some.inj hv
      exact h0
  | jnull => exact absurd hv (by simp)
  | jbool b => exact absurd hv (by simp)
  | jnum n => exact absurd hv (by simp)
  | jarr ys => exact absurd hv (by simp)

/-- A successful POST stores exactly the tag list computed from the body's
`tags` field. -/
theorem postTodo_ok_tags (body : ReqBody) (newId : String) (now : Int) (store : List Todo)
    (t : Todo) (store' : List Todo) (hok : postTodo body newId now store = .ok (t, store')) :
    t.tags =
      match body.tags with
      | some (.jarr xs) => filterTagsJ xs
      | some _ => []
      | none => [] := by
  unfold postTodo at hok
  split at hok
  · split at hok
    · exact absurd hok (by simp)
    · split at hok
      · exact absurd hok (by simp)
      · dsimp only at hok
        split at hok
        · exact absurd hok (by simp)
        · simp only [Except.ok.injEq, Prod.mk.injEq] at hok
          obtain ⟨ht, _⟩ := hok
          subst ht
          rfl
  · exact absurd hok (by simp)

/-- A successful PUT yields the merge of the found record with the
prepared updates. -/
theorem putTodo_ok_shape (store : List Todo) (id : String) (body : ReqBody) (now : Int)
    (t' : Todo) (store' : List Todo) (hok : putTodo store id body now = .ok (t', store')) :
    ∃ e descUpd, store.find? (fun u => u.id == id) = some e ∧
      putDesc body.description = .ok descUpd ∧ t' = mergePut e body descUpd now := by
  unfold putTodo at hok
  split at hok
  · exact absurd hok (by simp)
  · split at hok
    · exact absurd hok (by simp)
    · split at hok
      · exact absurd hok (by simp)
      · rename_i descUpd hdesc xopt e hfound
        simp only [Except.ok.injEq, Prod.mk.injEq] at hok
        obtain ⟨ht, _⟩ := hok
        exact ⟨e, descUpd, hfound, hdesc, ht.symm⟩

/-- Counterexample to C5 as stated: `POST {title:"X", tags:["Work","Work"]}`
stores tags `["Work","Work"]`, which is neither de-duplicated nor
lowercase — the write boundary only drops non-strings and blank strings,
and neither lowercases nor de-duplicates. -/
theorem stored_tags_not_lowercase_deduplicated :
    (postTodo ⟨some (.jstr "X"), none, none, none,
        some (.jarr [.jstr "Work", .jstr "Work"]), none, none, none⟩ "n1" 0 []).toOption.map
        (fun p => p.1.tags) = some ["Work", "Work"] ∧
    ¬((["Work", "Work"] : List String).Nodup ∧
      ∀ s ∈ (["Work", "Work"] : List String), s ≠ "" ∧ s.toList.all (fun c => c.toLower == c)) := by
  constructor
  · rfl
  · decide

/-- C5 (amended).  Every stored todo's tags are string entries that are
non-blank after trimming, stored verbatim (not lowercased, trimmed or
de-duplicated): POST establishes the non-blank property for arbitrary
input tag arrays, and PUT preserves it. -/
theorem write_tags_nonblank :
    (∀ (body : ReqBody) (newId : String) (now : Int) (store : List Todo)
       (t : Todo) (store' : List Todo),
      postTodo body newId now store = .ok (t, store') → ∀ s ∈ t.tags, jsTrim s ≠ "") ∧
    (∀ (store : List Todo) (id : String) (body : ReqBody) (now : Int)
       (t' : Todo) (store' : List Todo) (e : Todo),
      putTodo store id body now = .ok (t', store') →
      store.find? (fun u => u.id == id) = some e →
      (∀ s ∈ e.tags, jsTrim s ≠ "") →
      ∀ s ∈ t'.tags, jsTrim s ≠ "") := by
  constructor
  · intro body newId now store t store' hok
    have htags := postTodo_ok_tags body newId now store t store' hok
    rw [htags]
    rcases body.tags with _ | v
    · simp
    · cases v with
      | jarr xs => exact filterTagsJ_nonblank xs
      | jnull => simp
      | jbool b => simp
      | jnum n => simp
      | jstr s0 => simp
  · intro store id body now t' store' e hok hfound hold
    obtain ⟨e2, descUpd, hfound2, _, ht⟩ := putTodo_ok_shape store id body now t' store' hok
    rw [hfound] at hfound2
    obtain rfl := Option.some.inj hfound2
    subst ht
    intro s hs
    unfold mergePut at hs
    dsimp only at hs
    revert hs
    rcases body.tags with _ | v
    · exact fun hs => hold s hs
    · cases v with
      | jarr xs => exact fun hs => filterTagsJ_nonblank xs s hs
      | jnull => exact fun hs => hold s hs
      | jbool b => exact fun hs => hold s hs
      | jnum n => exact fun hs => hold s hs
      | jstr s0 => exact fun hs => hold s hs

/-- Witness for C5 (amended): the blank and junk entries of the spec's
tag scenario are dropped, and every stored tag is non-blank. -/
theorem write_tags_nonblank_witness :
    ∀ s ∈ (⟨"n1", "X", none, false, "medium", none, ["work", "urgent"], 3, 3⟩ : Todo).tags,
      jsTrim s ≠ "" :=
  write_tags_nonblank.1
    ⟨some (.jstr "X"), none, none, none,
      some (.jarr [JVal.jstr "work", JVal.jstr "", JVal.jstr "  ", JVal.jnum 123, JVal.jnull,
        JVal.jstr "urgent"]), none, none, none⟩ "n1" 3 []
    ⟨"n1", "X", none, false, "medium", none, ["work", "urgent"], 3, 3⟩
    [⟨"n1", "X", none, false, "medium", none, ["work", "urgent"], 3, 3⟩] rfl

/-- A successful PATCH yields the unchecked shallow merge of the found
record with the body. -/
theorem patchTodo_ok_shape (store : List Todo) (id : String) (body : PatchBody) (now : Int)
    (t' : Todo) (store' : List Todo) (hok : patchTodo store id body now = .ok (t', store')) :
    ∃ e, store.find? (fun u => u.id == id) = some e ∧ t' = patchMerge e body now := by
  unfold patchTodo at hok
  split at hok
  · exact absurd hok (by simp)
  · rename_i e hfound
    simp only [Except.ok.injEq, Prod.mk.injEq] at hok
    obtain ⟨ht, _⟩ := hok
    exact ⟨e, hfound, ht.symm⟩

/-- Counterexample to C7 as stated: a PUT whose body carries a
`createdAt` key overwrites the stored `createdAt` (the prepared updates
spread the raw body and only undefined-valued keys are removed), so an
update request can change `createdAt`: here from 5 to 3. -/
theorem put_overwrites_createdAt :
    (putTodo [⟨"a", "Alpha", none, false, "medium", none, [], 5, 5⟩] "a"
        ⟨none, none, none, none, none, none, some 3, none⟩ 50).toOption.map
        (fun p => p.1.createdAt) = some 3 ∧
    (putTodo [⟨"a", "Alpha", none, false, "medium", none, [], 5, 5⟩] "a"
        ⟨none, none, none, none, none, none, some 3, none⟩ 50).toOption.map
        (fun p => p.1.createdAt) ≠ some 5 := by
  constructor
  · rfl
  · decide

/-- C7 (amended).  For update requests whose body does not carry a
`createdAt` key, single-resource PUT and PATCH (the store's `update`
delegates to PUT) leave `createdAt` unchanged and set `updatedAt` to the
current time, which is `≥` the previous `updatedAt` whenever the clock
has not gone backwards since the record was written. -/
theorem update_preserves_createdAt_advances_updatedAt :
    (∀ (store : List Todo) (id : String) (body : ReqBody) (now : Int)
       (t' : Todo) (store' : List Todo) (e : Todo),
      body.createdAt = none →
      putTodo store id body now = .ok (t', store') →
      store.find? (fun u => u.id == id) = some e →
      e.updatedAt ≤ now →
      t'.createdAt = e.createdAt ∧ t'.updatedAt = now ∧ e.updatedAt ≤ t'.updatedAt) ∧
    (∀ (store : List Todo) (id : String) (body : PatchBody) (now : Int)
       (t' : Todo) (store' : List Todo) (e : Todo),
      body.createdAt = none →
      patchTodo store id body now = .ok (t', store') →
      store.find? (fun u => u.id == id) = some e →
      e.updatedAt ≤ now →
      t'.createdAt = e.createdAt ∧ t'.updatedAt = now ∧ e.updatedAt ≤ t'.updatedAt) := by
  constructor
  · intro store id body now t' store' e hCA hok hfound hle
    obtain ⟨e2, descUpd, hfound2, _, ht⟩ := putTodo_ok_shape store id body now t' store' hok
    rw [hfound] at hfound2
    obtain rfl := Option.some.inj hfound2
    subst ht
    refine ⟨by simp [mergePut, hCA], rfl, ?_⟩
    simpa [mergePut] using hle
  · intro store id body now t' store' e hCA hok hfound hle
    obtain ⟨e2, hfound2, ht⟩ := patchTodo_ok_shape store id body now t' store' hok
    rw [hfound] at hfound2
    obtain rfl := Option.some.inj hfound2
    subst ht
    refine ⟨by simp [patchMerge, hCA], rfl, ?_⟩
    simpa [patchMerge] using hle

/-- Witness for C7 (amended): a PUT with an empty body on a record last
updated at 5, applied at time 9, keeps `createdAt = 5` and advances
`updatedAt` to 9. -/
theorem update_preserves_createdAt_advances_updatedAt_witness :
    (⟨"a", "Alpha", none, false, "medium", none, [], 5, 9⟩ : Todo).createdAt =
        (⟨"a", "Alpha", none, false, "medium", none, [], 5, 5⟩ : Todo).createdAt ∧
      (⟨"a", "Alpha", none, false, "medium", none, [], 5, 9⟩ : Todo).updatedAt = 9 ∧
      (⟨"a", "Alpha", none, false, "medium", none, [], 5, 5⟩ : Todo).updatedAt ≤
        (⟨"a", "Alpha", none, false, "medium", none, [], 5, 9⟩ : Todo).updatedAt :=
  update_preserves_createdAt_advances_updatedAt.1
    [⟨"a", "Alpha", none, false, "medium", none, [], 5, 5⟩] "a"
    ⟨none, none, none, none, none, none, none, none⟩ 9
    ⟨"a", "Alpha", none, false, "medium", none, [], 5, 9⟩
    [⟨"a", "Alpha", none, false, "medium", none, [], 5, 9⟩]
    ⟨"a", "Alpha", none, false, "medium", none, [], 5, 5⟩
    rfl rfl rfl (by decide)

/-- C10.  In single-resource PUT, undefined-valued keys of the prepared
patch are removed before merging, so an existing optional field can never
be cleared through PUT: a successful PUT leaves the stored `dueDate`
unchanged when the body's `dueDate` is absent or falsy, leaves the stored
tags unchanged when the body's `tags` is not an array, and leaves the
stored description unchanged when the body has no `description` key. -/
theorem put_undefined_fields_preserved (store : List Todo) (id : String) (body : ReqBody)
    (now : Int) (t' : Todo) (store' : List Todo) (e : Todo)
    (hok : putTodo store id body now = .ok (t', store'))
    (hfound : store.find? (fun u => u.id == id) = some e) :
    ((body.dueDate = none ∨ ∃ v, body.dueDate = some v ∧ jsTruthy v = false) →
      t'.dueDate = e.dueDate) ∧
    ((∀ xs, body.tags ≠ some (.jarr xs)) → t'.tags = e.tags) ∧
    (body.description = none → t'.description = e.description) := by
  obtain ⟨e2, descUpd, hfound2, hdesc, ht⟩ := putTodo_ok_shape store id body now t' store' hok
  rw [hfound] at hfound2
  obtain rfl := Option.some.inj hfound2
  subst ht
  refine ⟨?_, ?_, ?_⟩
  · intro hdd
    rcases hdd with h | ⟨v, hv, hfalsy⟩
    · simp [mergePut, h]
    · simp [mergePut, hv, hfalsy]
  · intro hnotarr
    unfold mergePut
    dsimp only
    rcases htg : body.tags with _ | v
    · rfl
    · cases v with
      | jarr xs => exact absurd htg (hnotarr xs)
      | jnull => rfl
      | jbool b => rfl
      | jnum n => rfl
      | jstr s0 => rfl
  · intro hnd
    rw [hnd] at hdesc
    obtain rfl : (none : Option String) = descUpd := by
      simpa [putDesc] using hdesc
    simp [mergePut]

/-- Witness for C10: a PUT with a falsy `dueDate` (`0`), a non-array
`tags` (a string) and no `description` key leaves all three stored fields
unchanged. -/
theorem put_undefined_fields_preserved_witness :
    (⟨"a", "Alpha", some "d0", false, "medium", some 77, ["keep"], 5, 9⟩ : Todo).dueDate =
        (⟨"a", "Alpha", some "d0", false, "medium", some 77, ["keep"], 5, 5⟩ : Todo).dueDate ∧
      (⟨"a", "Alpha", some "d0", false, "medium", some 77, ["keep"], 5, 9⟩ : Todo).tags =
        (⟨"a", "Alpha", some "d0", false, "medium", some 77, ["keep"], 5, 5⟩ : Todo).tags ∧
      (⟨"a", "Alpha", some "d0", false, "medium", some 77, ["keep"], 5, 9⟩ : Todo).description =
        (⟨"a", "Alpha", some "d0", false, "medium", some 77, ["keep"], 5, 5⟩ : Todo).description := by
  have h := put_undefined_fields_preserved
    [⟨"a", "Alpha", some "d0", false, "medium", some 77, ["keep"], 5, 5⟩] "a"
    ⟨none, none, none, some (.jnum 0), some (.jstr "x"), none, none, none⟩ 9
    ⟨"a", "Alpha", some "d0", false, "medium", some 77, ["keep"], 5, 9⟩
    [⟨"a", "Alpha", some "d0", false, "medium", some 77, ["keep"], 5, 9⟩]
    ⟨"a", "Alpha", some "d0", false, "medium", some 77, ["keep"], 5, 5⟩
    rfl rfl
  exact ⟨h.1 (Or.inr ⟨.jnum 0, rfl, rfl⟩),
    h.2.1 (fun xs hx => JVal.noConfusion (Option.some.inj hx)),
    h.2.2 rfl⟩

/-- Counterexample to C4 as stated: with a perfectly valid title but a
numeric description, `description?.trim()` throws, so the handler
returns a 500 — neither the claimed 400 (the title is fine) nor the
claimed 201. -/
theorem post_nonstring_description_is_500 :
    postTodo ⟨some (.jstr "X"), some (.jnum 1), none, none, none, none, none, none⟩
        "n1" 0 [] = .error .internal ∧
    titleMissingNotStringOrBlank (some (.jstr "X")) = false := by
  constructor
  · rfl
  · decide
